import Mathlib

/-!
Shallow embedding of the vector-store module of the voosh backend
(`src/unnamed/part_000`), the orchestrator that routes `initVectorStore`,
`addDocuments`, `search` and `clearStore` between a persistent LanceDB
backend and an in-memory fallback list.

Modelling conventions:
* JS numbers are modelled as real numbers (`ℝ`); `Math.sqrt` is `Real.sqrt`.
* The external LanceDB engine is abstract: each call into it is represented
  by an `ExtResult` value supplied in an environment record, `ok` for a
  normal return and `err` for a thrown exception.  Handles (`db`, `table`)
  carry no data, so they are `Option Unit` mirroring the nullable JS
  variables.
* The module-level mutable variables become a `StoreState` record; each
  operation takes the state and returns the new state (together with its
  return value where the source returns one).  All four operations catch
  every engine exception internally, so they are total functions.
* Metadata is restricted to the four keys the source ever projects into a
  `SearchResult` (`title`, `link`, `pubDate`, `source`); absent keys are
  `none` (JS `undefined`).
-/

namespace VectorStore

/-- Outcome of one call into the external LanceDB engine: a returned value
(`ok`) or a thrown exception (`err`). -/
inductive ExtResult (α : Type) where
  | ok : α → ExtResult α
  | err : ExtResult α
deriving DecidableEq

/-- The metadata keys the store projects into search results; a `none` field
is an absent key (JS `undefined`). -/
structure Metadata where
  title : Option String := none
  link : Option String := none
  pubDate : Option String := none
  source : Option String := none
deriving DecidableEq

/-- Source type `InMemoryDocument`: one record of the in-memory fallback
store. -/
structure InMemoryDocument where
  id : String
  text : String
  embedding : List ℝ
  metadata : Metadata

/-- Source type `DocumentInput`: what callers hand to `addDocuments`;
`metadata` is optional (`doc.metadata || {}` on insertion). -/
structure DocumentInput where
  id : String
  text : String
  embedding : List ℝ
  metadata : Option Metadata := none

/-- Source type `SearchResult`. -/
structure SearchResult where
  id : String
  text : String
  score : ℝ
  metadata : Metadata

/-- The `dotProduct` accumulator of the loop in `cosineSimilarity`; the loop
only runs after the length guard, i.e. with `vecA.length = vecB.length`. -/
def dotProduct (a b : List ℝ) : ℝ := (List.zipWith (· * ·) a b).sum

/-- The `normA` / `normB` accumulators of the loop in `cosineSimilarity`:
the sum of the squares of the entries. -/
def normSq (a : List ℝ) : ℝ := (a.map fun x => x * x).sum

/-- Source `cosineSimilarity` (part_000 lines 15-30): `0` on mismatched
lengths, then `dotProduct / denominator` guarded by `denominator === 0`,
where `denominator = sqrt(normA) * sqrt(normB)` (the local variable
`denominator` is inlined here). -/
noncomputable def cosineSimilarity (vecA vecB : List ℝ) : ℝ :=
  if vecA.length ≠ vecB.length then 0
  else if Real.sqrt (normSq vecA) * Real.sqrt (normSq vecB) = 0 then 0
  else dotProduct vecA vecB / (Real.sqrt (normSq vecA) * Real.sqrt (normSq vecB))

theorem normSq_cons (y : ℝ) (t : List ℝ) : normSq (y :: t) = y * y + normSq t := by
  simp [normSq]

theorem normSq_nonneg (a : List ℝ) : 0 ≤ normSq a :=
  List.sum_nonneg fun x hx => by
    obtain ⟨y, _, rfl⟩ := List.mem_map.mp hx
    exact mul_self_nonneg y

theorem normSq_pos {a : List ℝ} {x : ℝ} (hx : x ∈ a) (hx0 : x ≠ 0) : 0 < normSq a := by
  induction a with
  | nil => cases hx
  | cons y t ih =>
    rw [normSq_cons]
    rcases List.mem_cons.mp hx with rfl | hxt
    · exact add_pos_of_pos_of_nonneg (mul_self_pos.mpr hx0) (normSq_nonneg t)
    · exact add_pos_of_nonneg_of_pos (mul_self_nonneg y) (ih hxt)

theorem zipWith_mul_self (a : List ℝ) : List.zipWith (· * ·) a a = a.map fun x => x * x := by
  induction a with
  | nil => rfl
  | cons x t ih => simp [ih]

theorem dotProduct_self (a : List ℝ) : dotProduct a a = normSq a := by
  rw [dotProduct, normSq, zipWith_mul_self]

theorem dotProduct_comm (a b : List ℝ) : dotProduct a b = dotProduct b a := by
  rw [dotProduct, dotProduct]
  congr 1
  induction a generalizing b with
  | nil => cases b <;> rfl
  | cons x t ih =>
    cases b with
    | nil => rfl
    | cons y u => simp [mul_comm, ih]

theorem cosineSimilarity_comm (a b : List ℝ) : cosineSimilarity a b = cosineSimilarity b a := by
  rw [cosineSimilarity, cosineSimilarity, dotProduct_comm,
    mul_comm (Real.sqrt (normSq a)) (Real.sqrt (normSq b))]
  exact if_congr ⟨Ne.symm, Ne.symm⟩ rfl rfl

theorem cosineSimilarity_self (a : List ℝ) (h : ∃ x ∈ a, x ≠ 0) : cosineSimilarity a a = 1 := by
  obtain ⟨x, hx, hx0⟩ := h
  have hpos : 0 < normSq a := normSq_pos hx hx0
  have hs : Real.sqrt (normSq a) * Real.sqrt (normSq a) = normSq a :=
    Real.mul_self_sqrt hpos.le
  rw [cosineSimilarity, if_neg (by simp), if_neg (by rw [hs]; exact hpos.ne'),
    dotProduct_self, hs, div_self hpos.ne']

/-- C7: `cosineSimilarity` returns exactly `0` whenever the two vectors have
different lengths, or either has zero norm (a zero sum of squares, i.e. a
zero-norm vector).  In this real-valued embedding the function is total, so
no error is raised, and the explicit guard on the denominator means the
result is never an ill-defined division (the JS `NaN`). -/
theorem cosineSimilarity_degenerate (a b : List ℝ)
    (h : a.length ≠ b.length ∨ normSq a = 0 ∨ normSq b = 0) :
    cosineSimilarity a b = 0 := by
  rw [cosineSimilarity]
  rcases h with h | h | h
  · rw [if_pos h]
  · by_cases hl : a.length ≠ b.length
    · rw [if_pos hl]
    · rw [if_neg hl, if_pos (by rw [h, Real.sqrt_zero, zero_mul])]
  · by_cases hl : a.length ≠ b.length
    · rw [if_pos hl]
    · rw [if_neg hl, if_pos (by rw [h, Real.sqrt_zero, mul_zero])]

/-- Witness for C7 at the concrete mismatched pair `[1]`, `[1, 2]` and the
zero-norm pair `[0, 0]`, `[1, 2]`. -/
theorem cosineSimilarity_degenerate_witness :
    cosineSimilarity [1] [1, 2] = 0 ∧ cosineSimilarity [0, 0] [0, 0] = 0 :=
  ⟨cosineSimilarity_degenerate [1] [1, 2] (Or.inl (by simp)),
   cosineSimilarity_degenerate [0, 0] [0, 0] (Or.inr (Or.inl (by norm_num [normSq])))⟩

/-- C8: `cosineSimilarity` is symmetric in its two arguments, and any vector
with a nonzero entry has self-similarity exactly `1`. -/
theorem cosineSimilarity_symm_and_self :
    (∀ a b : List ℝ, cosineSimilarity a b = cosineSimilarity b a) ∧
      ∀ a : List ℝ, (∃ x ∈ a, x ≠ 0) → cosineSimilarity a a = 1 :=
  ⟨cosineSimilarity_comm, cosineSimilarity_self⟩

/-- Witness for C8 at the concrete vectors `[1, 2]`, `[3, 4]` and the nonzero
vector `[0, 2]`. -/
theorem cosineSimilarity_symm_and_self_witness :
    cosineSimilarity [1, 2] [3, 4] = cosineSimilarity [3, 4] [1, 2] ∧
      cosineSimilarity [0, 2] [0, 2] = 1 :=
  ⟨cosineSimilarity_symm_and_self.1 [1, 2] [3, 4],
   cosineSimilarity_symm_and_self.2 [0, 2] ⟨2, by simp, by norm_num⟩⟩

/-- The module-level mutable variables of part_000 (lines 12, 33-36, 84-85).
`lancedb` and `lancedbLoadError` are the nullable caches of `loadLanceDB`,
kept as flags since the module handle carries no data; `db` and `table` are
the nullable engine handles. -/
structure StoreState where
  lancedb : Bool
  lancedbLoadError : Bool
  vectordbAvailable : Bool
  useInMemoryStore : Bool
  db : Option Unit
  table : Option Unit
  inMemoryStore : List InMemoryDocument

/-- The state at module load: every flag false, every handle null, the
in-memory store empty. -/
def initialState : StoreState :=
  { lancedb := false, lancedbLoadError := false, vectordbAvailable := false,
    useInMemoryStore := false, db := none, table := none, inMemoryStore := [] }

/-- What the external world does during one `initVectorStore` call: whether
the dynamic import of `vectordb` succeeds, whether the `fs` calls throw, and
the outcome of each engine call. -/
structure InitEnv where
  loadOk : Bool
  mkdirThrows : Bool
  connect : ExtResult Unit
  tableNames : ExtResult (List String)
  openTable : ExtResult Unit
deriving DecidableEq

/-- Source `loadLanceDB` (lines 38-58): returns the cached module, or `null`
after a cached failure, otherwise performs the import, caching module or
error; it never throws. -/
def loadLanceDB (loadOk : Bool) (s : StoreState) : Option Unit × StoreState :=
  if s.lancedb then (some (), s)
  else if s.lancedbLoadError then (none, s)
  else if loadOk then (some (), { s with lancedb := true, vectordbAvailable := true })
  else (none, { s with lancedbLoadError := true, vectordbAvailable := false })

/-- The `catch` block of `initVectorStore` (lines 123-131): clear the
availability flag and both handles, switch to the in-memory store. -/
def initCatch (s : StoreState) : StoreState :=
  { s with vectordbAvailable := false, db := none, table := none, useInMemoryStore := true }

/-- Source `initVectorStore` (lines 90-132).  Module unavailable: set
`useInMemoryStore` and return.  Otherwise mkdir, connect, list tables, open
the `news_articles` table when present; any throw lands in the catch block.
On success `useInMemoryStore := false`.  The function never throws. -/
def initVectorStore (env : InitEnv) (s : StoreState) : StoreState :=
  let p := loadLanceDB env.loadOk s
  if p.1 = none ∨ p.2.vectordbAvailable = false then
    { p.2 with useInMemoryStore := true }
  else if env.mkdirThrows then initCatch p.2
  else
    match env.connect with
    | .err => initCatch p.2
    | .ok _ =>
      let s2 := { p.2 with db := some () }
      match env.tableNames with
      | .err => initCatch s2
      | .ok names =>
        if "news_articles" ∈ names then
          match env.openTable with
          | .err => initCatch s2
          | .ok _ => { s2 with table := some (), useInMemoryStore := false }
        else { s2 with useInMemoryStore := false }

/-- Insertion into the in-memory store (lines 154-161): `doc.metadata || {}`
defaults the metadata. -/
def pushDoc (d : DocumentInput) : InMemoryDocument :=
  { id := d.id, text := d.text, embedding := d.embedding, metadata := d.metadata.getD {} }

/-- Environment of one `addDocuments` call: the init environment used if the
lazy `initVectorStore` runs, and the outcomes of `db.createTable` /
`table.add`. -/
structure AddEnv where
  initEnv : InitEnv
  createTable : ExtResult Unit
  tableAdd : ExtResult Unit
deriving DecidableEq

/-- Source `addDocuments` (lines 134-189).  Empty batch: no-op.  Lazy init
when no db handle and not yet in-memory.  In-memory mode (or still no db):
append the batch to `inMemoryStore`.  Persistent mode: create the table from
the batch, or `table.add`; a throw from either is caught and only logged
(lines 185-188), leaving the state unchanged.  The function never throws. -/
def addDocuments (env : AddEnv) (s : StoreState) (documents : List DocumentInput) : StoreState :=
  if documents.length = 0 then s
  else
    let s1 := if s.db = none ∧ s.useInMemoryStore = false then initVectorStore env.initEnv s else s
    if s1.useInMemoryStore = true ∨ s1.db = none then
      { s1 with inMemoryStore := s1.inMemoryStore ++ documents.map pushDoc }
    else
      match s1.table with
      | none =>
        match env.createTable with
        | .ok _ => { s1 with table := some () }
        | .err => s1
      | some _ =>
        match env.tableAdd with
        | .ok _ => s1
        | .err => s1

/-- One row returned by the engine's nearest-neighbor query; `distance` is
the `_distance` field, `none` when the field is absent (`undefined`). -/
structure LanceRow where
  id : String
  text : String
  distance : Option ℝ
  title : Option String := none
  link : Option String := none
  pubDate : Option String := none
  source : Option String := none

/-- Row-to-result mapping of the persistent search path (lines 229-241).
The JS conditional `r._distance ? 1 - r._distance : 0` tests truthiness, and
the number `0` is falsy: a present distance of exactly `0` takes the `: 0`
arm, so only a present nonzero distance yields `1 - d`. -/
noncomputable def mapLanceRow (r : LanceRow) : SearchResult :=
  { id := r.id, text := r.text,
    score :=
      match r.distance with
      | some d => if d = 0 then 0 else 1 - d
      | none => 0,
    metadata := { title := r.title, link := r.link, pubDate := r.pubDate, source := r.source } }

/-- A scored in-memory document, `{...doc, score}` of line 202-205. -/
structure ScoredDoc where
  id : String
  text : String
  embedding : List ℝ
  metadata : Metadata
  score : ℝ

/-- Scoring pass of the in-memory search (lines 202-205). -/
noncomputable def scoreAll (q : List ℝ) (store : List InMemoryDocument) : List ScoredDoc :=
  store.map fun d => ⟨d.id, d.text, d.embedding, d.metadata, cosineSimilarity q d.embedding⟩

/-- The order of the comparator `(a, b) => b.score - a.score` (line 209):
`a` sorts no later than `b` exactly when `b.score ≤ a.score`. -/
def scoreGE (a b : ScoredDoc) : Prop := b.score ≤ a.score

noncomputable instance : DecidableRel scoreGE := fun a b => Real.decidableLE b.score a.score

instance : IsTotal ScoredDoc scoreGE := ⟨fun a b => le_total b.score a.score⟩

instance : IsTrans ScoredDoc scoreGE := ⟨fun _ _ _ h1 h2 => le_trans h2 h1⟩

/-- The `.sort((a, b) => b.score - a.score)` of line 209.  ECMAScript
`Array.prototype.sort` is a stable sort, and with this comparator it is the
stable descending-by-score sort, which insertion sort by `scoreGE`
computes. -/
noncomputable def sortByScore (l : List ScoredDoc) : List ScoredDoc :=
  l.insertionSort scoreGE

/-- Projection of a scored document to a `SearchResult` (lines 211-221): the
four known metadata keys are carried over. -/
def toSearchResult (d : ScoredDoc) : SearchResult :=
  ⟨d.id, d.text, d.score, d.metadata⟩

/-- Environment of one `search` call: the rows the engine's
`table.search(q).limit(topK).execute()` returns, or a thrown exception. -/
structure SearchEnv where
  rows : ExtResult (List LanceRow)

/-- Source `search` (lines 191-246), default `topK = 3`.  In-memory mode or
no table handle: empty store gives `[]`, otherwise score, sort descending,
take `topK`, project.  Persistent mode: map the engine rows; a throw is
caught and gives `[]`.  The source never assigns any module variable, so
each branch returns the state unchanged. -/
noncomputable def search (env : SearchEnv) (s : StoreState) (queryEmbedding : List ℝ)
    (topK : Nat) : List SearchResult × StoreState :=
  if s.useInMemoryStore = true ∨ s.table = none then
    if s.inMemoryStore.length = 0 then ([], s)
    else (((sortByScore (scoreAll queryEmbedding s.inMemoryStore)).take topK).map toSearchResult, s)
  else
    match env.rows with
    | .ok rows => (rows.map mapLanceRow, s)
    | .err => ([], s)

/-- Source `clearStore` (lines 248-258): only when both `table` and `db` are
non-null, drop the table and null the table handle; a throw from `dropTable`
is caught and logged, leaving the handle in place.  The in-memory store is
never touched.  The function never throws. -/
def clearStore (dropResult : ExtResult Unit) (s : StoreState) : StoreState :=
  if s.table ≠ none ∧ s.db ≠ none then
    match dropResult with
    | .ok _ => { s with table := none }
    | .err => s
  else s

/-- One public operation of the store interface, together with the behavior
of the external engine during that call. -/
inductive StoreOp where
  | add (env : AddEnv) (documents : List DocumentInput)
  | query (env : SearchEnv) (q : List ℝ) (topK : Nat)
  | clear (dropResult : ExtResult Unit)

/-- Run one operation for its state effect. -/
noncomputable def runOp (op : StoreOp) (s : StoreState) : StoreState :=
  match op with
  | .add env documents => addDocuments env s documents
  | .query env q topK => (search env s q topK).2
  | .clear r => clearStore r s

/-- Run a sequence of operations. -/
noncomputable def runOps : List StoreOp → StoreState → StoreState
  | [], s => s
  | op :: rest, s => runOps rest (runOp op s)

/-- A caller-submitted document with a nonzero embedding. -/
def doc1 : DocumentInput := { id := "d1", text := "t1", embedding := [1, 0] }

/-- A store in persistent mode: module loaded, both handles live, in-memory
list empty. -/
def persistState : StoreState :=
  { lancedb := true, lancedbLoadError := false, vectordbAvailable := true,
    useInMemoryStore := false, db := some (), table := some (), inMemoryStore := [] }

/-- A store downgraded to in-memory mode holding one document. -/
def memState : StoreState :=
  { lancedb := false, lancedbLoadError := true, vectordbAvailable := false,
    useInMemoryStore := true, db := none, table := none, inMemoryStore := [pushDoc doc1] }

/-- An engine whose search call throws. -/
def errSearchEnv : SearchEnv := ⟨.err⟩

/-- An initialization environment in which the engine `connect` throws. -/
def failInitEnv : InitEnv :=
  { loadOk := true, mkdirThrows := false, connect := .err, tableNames := .err,
    openTable := .err }

/-- An initialization environment in which the module import itself fails. -/
def noModuleInitEnv : InitEnv :=
  { loadOk := false, mkdirThrows := false, connect := .err, tableNames := .err,
    openTable := .err }

/-- An `addDocuments` environment in which every engine call throws. -/
def errAddEnv : AddEnv :=
  { initEnv := noModuleInitEnv, createTable := .err, tableAdd := .err }

/-- Some stage of `initVectorStore` fails: the dynamic import fails, the fs
calls throw, `connect` throws, `tableNames` throws, or the collection exists
and `openTable` throws. -/
def InitFails (env : InitEnv) : Prop :=
  env.loadOk = false ∨ env.mkdirThrows = true ∨ env.connect = .err ∨
    env.tableNames = .err ∨
    ∃ names, env.tableNames = .ok names ∧ "news_articles" ∈ names ∧ env.openTable = .err

theorem initVectorStore_fail_fields (env : InitEnv) (hfail : InitFails env) :
    (initVectorStore env initialState).useInMemoryStore = true ∧
      (initVectorStore env initialState).db = none ∧
      (initVectorStore env initialState).table = none ∧
      (initVectorStore env initialState).inMemoryStore = [] := by
  obtain ⟨loadOk, mkdirThrows, connect, tableNames, openTable⟩ := env
  cases loadOk
  · simp [initVectorStore, loadLanceDB, initialState]
  · cases mkdirThrows
    · cases connect with
      | err => simp [initVectorStore, loadLanceDB, initialState, initCatch]
      | ok u =>
        cases tableNames with
        | err => simp [initVectorStore, loadLanceDB, initialState, initCatch]
        | ok names =>
          by_cases hm : "news_articles" ∈ names
          · cases openTable with
            | err => simp [initVectorStore, loadLanceDB, initialState, initCatch, hm]
            | ok v =>
              exfalso
              rcases hfail with h | h | h | h | ⟨ns, hns, hmem, ho⟩
              · exact Bool.noConfusion h
              · exact Bool.noConfusion h
              · exact ExtResult.noConfusion h
              · exact ExtResult.noConfusion h
              · exact ExtResult.noConfusion ho
          · exfalso
            rcases hfail with h | h | h | h | ⟨ns, hns, hmem, ho⟩
            · exact Bool.noConfusion h
            · exact Bool.noConfusion h
            · exact ExtResult.noConfusion h
            · exact ExtResult.noConfusion h
            · injection hns with h
              exact hm (h ▸ hmem)
    · simp [initVectorStore, loadLanceDB, initialState, initCatch]

theorem addDocuments_inMemory (env : AddEnv) (s : StoreState) (documents : List DocumentInput)
    (hmode : s.useInMemoryStore = true) (hne : documents.length ≠ 0) :
    addDocuments env s documents =
      { s with inMemoryStore := s.inMemoryStore ++ documents.map pushDoc } := by
  unfold addDocuments
  simp [hne, hmode]

theorem search_snd (env : SearchEnv) (s : StoreState) (q : List ℝ) (topK : Nat) :
    (search env s q topK).2 = s := by
  unfold search
  split
  · split <;> rfl
  · split <;> rfl

theorem sortByScore_singleton (x : ScoredDoc) : sortByScore [x] = [x] := rfl

theorem search_inMemory_single (env : SearchEnv) (s : StoreState) (q : List ℝ) (topK : Nat)
    (hmode : s.useInMemoryStore = true) (htop : 1 ≤ topK) (d : InMemoryDocument)
    (hstore : s.inMemoryStore = [d]) :
    (search env s q topK).1 =
      [⟨d.id, d.text, cosineSimilarity q d.embedding, d.metadata⟩] := by
  have htake : ∀ x : ScoredDoc, List.take topK [x] = [x] := fun x =>
    List.take_of_length_le (by simpa using htop)
  unfold search
  simp [hmode, hstore, scoreAll, sortByScore_singleton, htake, toSearchResult]

/-- C1 fails on the code: with the store in persistent mode (`persistState`)
and the engine's `table.add` throwing, `addDocuments` of the nonempty batch
`[doc1]` neither switches the mode to in-memory nor re-adds the batch to the
in-memory backend — the catch in lines 185-188 only logs, so the batch is
silently dropped. -/
theorem addDocuments_insert_err_counterexample :
    (addDocuments errAddEnv persistState [doc1]).useInMemoryStore = false ∧
      (addDocuments errAddEnv persistState [doc1]).inMemoryStore = [] :=
  ⟨rfl, rfl⟩

/-- C1 amended: if the persistent backend's insert (`table.add`, or
`db.createTable` when no table exists yet) throws during `addDocuments` of a
nonempty batch, the exception is caught — no error reaches the caller and
`addDocuments` returns normally — but the state is left entirely unchanged:
the mode stays persistent and the batch is dropped, not re-added to the
in-memory backend. -/
theorem addDocuments_insert_err_drops_batch (env : AddEnv) (s : StoreState)
    (documents : List DocumentInput)
    (hmode : s.useInMemoryStore = false) (hdb : s.db = some ())
    (hne : documents.length ≠ 0)
    (hthrow : (s.table = some () ∧ env.tableAdd = .err) ∨
      (s.table = none ∧ env.createTable = .err)) :
    addDocuments env s documents = s := by
  unfold addDocuments
  rcases hthrow with ⟨htab, herr⟩ | ⟨htab, herr⟩ <;> simp [hne, hmode, hdb, htab, herr]

/-- Witness for C1's amended theorem at the concrete persistent store, a
throwing engine and the batch `[doc1]`. -/
theorem addDocuments_insert_err_drops_batch_witness :
    addDocuments errAddEnv persistState [doc1] = persistState :=
  addDocuments_insert_err_drops_batch errAddEnv persistState [doc1] rfl rfl
    (by decide) (Or.inl ⟨rfl, rfl⟩)

/-- C2: when any stage of initialization raises, `initVectorStore` completes
normally (in this embedding it is a total function: every engine exception
lands in its catch block) with the mode set to in-memory, and a subsequent
`addDocuments` of one document with a nonzero embedding followed by `search`
with that document's own embedding returns exactly that document with score
`1`. -/
theorem initFail_add_search_roundtrip (env : InitEnv) (aenv : AddEnv) (senv : SearchEnv)
    (d : DocumentInput) (topK : Nat) (hfail : InitFails env) (htop : 1 ≤ topK)
    (hd : ∃ x ∈ d.embedding, x ≠ 0) :
    (initVectorStore env initialState).useInMemoryStore = true ∧
      (search senv (addDocuments aenv (initVectorStore env initialState) [d])
          d.embedding topK).1 =
        [{ id := d.id, text := d.text, score := 1, metadata := d.metadata.getD {} }] := by
  obtain ⟨hmode, hdb, htab, hmem⟩ := initVectorStore_fail_fields env hfail
  refine ⟨hmode, ?_⟩
  have hadd := addDocuments_inMemory aenv (initVectorStore env initialState) [d] hmode (by simp)
  have hmode2 : (addDocuments aenv (initVectorStore env initialState) [d]).useInMemoryStore
      = true := by
    rw [hadd]
    exact hmode
  have hstore2 : (addDocuments aenv (initVectorStore env initialState) [d]).inMemoryStore
      = [pushDoc d] := by
    rw [hadd]
    simp [hmem]
  rw [search_inMemory_single senv _ d.embedding topK hmode2 htop (pushDoc d) hstore2]
  have hcos : cosineSimilarity d.embedding d.embedding = 1 :=
    cosineSimilarity_self d.embedding hd
  simp [pushDoc, hcos]

/-- Witness for C2 with a concrete throwing `connect`, the document `doc1`
(embedding `[1, 0]`) and the default `topK = 3`. -/
theorem initFail_add_search_roundtrip_witness :
    (initVectorStore failInitEnv initialState).useInMemoryStore = true ∧
      (search errSearchEnv
          (addDocuments errAddEnv (initVectorStore failInitEnv initialState) [doc1])
          doc1.embedding 3).1 =
        [{ id := doc1.id, text := doc1.text, score := 1, metadata := doc1.metadata.getD {} }] :=
  initFail_add_search_roundtrip failInitEnv errAddEnv errSearchEnv doc1 3
    (Or.inr (Or.inr (Or.inl rfl))) (by norm_num) ⟨1, by simp [doc1], one_ne_zero⟩

/-- C3 fails on the code: `clearStore` only drops the persistent table and
never touches the in-memory list.  On the concrete in-memory store holding
one document, `clearStore` leaves the document in place and a subsequent
search still returns it. -/
theorem clearStore_inMemory_counterexample :
    (clearStore (.ok ()) memState).inMemoryStore ≠ [] ∧
      (search errSearchEnv (clearStore (.ok ()) memState) [1, 0] 3).1 ≠ [] :=
  ⟨List.cons_ne_nil _ _, List.cons_ne_nil _ _⟩

/-- C3 amended: `clearStore` discards documents only in persistent mode:
when both the `db` and `table` handles are live and the engine's `dropTable`
succeeds, the table handle is cleared, and — provided the in-memory list is
empty, as it is in an undegraded persistent process — every subsequent
`search` returns `[]`.  The in-memory documents themselves are never
discarded by `clearStore`. -/
theorem clearStore_persistent_search_empty (env : SearchEnv) (s : StoreState)
    (hdb : s.db = some ()) (htab : s.table = some ()) (hmem : s.inMemoryStore = []) :
    (clearStore (.ok ()) s).table = none ∧
      ∀ q topK, (search env (clearStore (.ok ()) s) q topK).1 = [] := by
  have hclear : clearStore (.ok ()) s = { s with table := none } := by
    unfold clearStore
    rw [if_pos ⟨by simp [htab], by simp [hdb]⟩]
  refine ⟨by rw [hclear], fun q topK => ?_⟩
  rw [hclear]
  unfold search
  simp [hmem]

/-- Witness for C3's amended theorem at the concrete persistent store. -/
theorem clearStore_persistent_search_empty_witness :
    (search errSearchEnv (clearStore (.ok ()) persistState) [1, 0] 3).1 = [] :=
  (clearStore_persistent_search_empty errSearchEnv persistState rfl rfl rfl).2 [1, 0] 3

/-- C4 names the spec's intended conversion (`score = 1 - d` whenever a
distance is present), but the code tests JS truthiness, under which a
present distance of exactly `0` — an exact match — is falsy and scores `0`
instead of `1 - 0 = 1`.  Evaluated at the failing input: a persistent-mode
search whose engine returns one row with `_distance = 0`. -/
theorem search_zero_distance_bug :
    (search ⟨.ok [{ id := "r0", text := "match", distance := some 0 }]⟩
        persistState [1, 0] 3).1 =
      [{ id := "r0", text := "match", score := 0, metadata := {} }] ∧
      (1 : ℝ) - 0 = 1 := by
  constructor
  · unfold search
    simp [persistState, mapLanceRow]
  · norm_num

/-- C6: a search against a store holding no documents — the in-memory list
empty and either in-memory mode, no table handle yet (fresh deployment), or
an empty persistent collection — returns `[]`, and in this embedding
`search` is total, so no error is raised. -/
theorem search_empty_store (env : SearchEnv) (s : StoreState) (q : List ℝ) (topK : Nat)
    (hmem : s.inMemoryStore.length = 0)
    (h : s.useInMemoryStore = true ∨ s.table = none ∨ env.rows = .ok []) :
    (search env s q topK).1 = [] := by
  unfold search
  rcases h with h | h | h
  · simp [h, hmem]
  · simp [h, hmem]
  · by_cases hb : s.useInMemoryStore = true ∨ s.table = none
    · simp [hb, hmem]
    · simp [hb, h]

/-- Witness for C6 on the fresh initial state (no collection yet). -/
theorem search_empty_store_witness :
    (search errSearchEnv initialState [1, 0] 3).1 = [] :=
  search_empty_store errSearchEnv initialState [1, 0] 3 rfl (Or.inr (Or.inl rfl))

theorem runOp_preserves_inMemory (op : StoreOp) (s : StoreState)
    (h : s.useInMemoryStore = true) : (runOp op s).useInMemoryStore = true := by
  cases op with
  | add env documents =>
    show (addDocuments env s documents).useInMemoryStore = true
    by_cases hne : documents.length = 0
    · unfold addDocuments
      simp [hne, h]
    · rw [addDocuments_inMemory env s documents h hne]
      exact h
  | query env q topK =>
    show ((search env s q topK).2).useInMemoryStore = true
    rw [search_snd]
    exact h
  | clear r =>
    show (clearStore r s).useInMemoryStore = true
    unfold clearStore
    split
    · cases r <;> simpa using h
    · exact h

/-- C9: in-memory mode is absorbing — once `useInMemoryStore` is set, no
sequence of `addDocuments`, `search` or `clearStore` calls, whatever the
external engine does during them, ever clears it, so every later operation
is routed to the in-memory backend. -/
theorem inMemory_mode_is_absorbing (ops : List StoreOp) (s : StoreState)
    (h : s.useInMemoryStore = true) : (runOps ops s).useInMemoryStore = true := by
  induction ops generalizing s with
  | nil => exact h
  | cons op rest ih => exact ih _ (runOp_preserves_inMemory op s h)

/-- Witness for C9 on a concrete three-operation sequence from the degraded
store `memState`. -/
theorem inMemory_mode_is_absorbing_witness :
    (runOps [StoreOp.clear (.ok ()), StoreOp.add errAddEnv [doc1],
      StoreOp.query errSearchEnv [1, 0] 3] memState).useInMemoryStore = true :=
  inMemory_mode_is_absorbing _ memState rfl

/-- C10: `search` is read-only — it returns the module state unchanged, so
in particular the in-memory document sequence (contents and order) after any
search is exactly what it was before the call. -/
theorem search_readonly (env : SearchEnv) (s : StoreState) (q : List ℝ) (topK : Nat) :
    (search env s q topK).2.inMemoryStore = s.inMemoryStore ∧
      (search env s q topK).2 = s :=
  ⟨by rw [search_snd], search_snd env s q topK⟩

/-- Boolean test that a scored document has score exactly `c`. -/
noncomputable def scoreIs (c : ℝ) (x : ScoredDoc) : Bool := decide (x.score = c)

/-- Boolean test that a search result has score exactly `c`. -/
noncomputable def resultScoreIs (c : ℝ) (r : SearchResult) : Bool := decide (r.score = c)

theorem filter_orderedInsert_eq (c : ℝ) (a : ScoredDoc) (l : List ScoredDoc)
    (ha : a.score = c) :
    (l.orderedInsert scoreGE a).filter (scoreIs c) = a :: l.filter (scoreIs c) := by
  induction l with
  | nil => simp [List.orderedInsert, scoreIs, ha]
  | cons b t ih =>
    rw [List.orderedInsert]
    by_cases hab : scoreGE a b
    · rw [if_pos hab]
      simp [List.filter_cons, scoreIs, ha]
    · rw [if_neg hab]
      have hb : b.score ≠ c := (ha ▸ not_le.mp hab).ne'
      simp [List.filter_cons, scoreIs, hb, ih]

theorem filter_orderedInsert_ne (c : ℝ) (a : ScoredDoc) (l : List ScoredDoc)
    (ha : a.score ≠ c) :
    (l.orderedInsert scoreGE a).filter (scoreIs c) = l.filter (scoreIs c) := by
  induction l with
  | nil => simp [List.orderedInsert, scoreIs, ha]
  | cons b t ih =>
    rw [List.orderedInsert]
    by_cases hab : scoreGE a b
    · rw [if_pos hab]
      simp [List.filter_cons, scoreIs, ha]
    · rw [if_neg hab]
      simp [List.filter_cons, scoreIs, ih]

/-- Stability of the sort of line 209: for every score value `c`, the
elements scoring `c` appear in the sorted list in exactly their original
order. -/
theorem filter_sortByScore (c : ℝ) (l : List ScoredDoc) :
    (sortByScore l).filter (scoreIs c) = l.filter (scoreIs c) := by
  induction l with
  | nil => rfl
  | cons a t ih =>
    have hs : sortByScore (a :: t) = (sortByScore t).orderedInsert scoreGE a := rfl
    rw [hs]
    by_cases ha : a.score = c
    · rw [filter_orderedInsert_eq c a _ ha, ih]
      simp [List.filter_cons, scoreIs, ha]
    · rw [filter_orderedInsert_ne c a _ ha, ih]
      simp [List.filter_cons, scoreIs, ha]

theorem filter_map_toSearchResult (c : ℝ) (l : List ScoredDoc) :
    (l.map toSearchResult).filter (resultScoreIs c) =
      (l.filter (scoreIs c)).map toSearchResult := by
  induction l with
  | nil => rfl
  | cons a t ih =>
    by_cases ha : a.score = c <;>
      simp [List.filter_cons, scoreIs, resultScoreIs, toSearchResult, ha, ih]

/-- C5: the in-memory search returns results sorted by non-increasing
cosine-similarity score; the result length is at most `topK` and at most the
number of stored documents; and ties between equal scores are broken by the
documents' original insertion order — for every score value `c`, the
returned results scoring `c` are an initial segment of the scored stored
documents scoring `c`, taken in insertion order. -/
theorem search_inMemory_ranked (env : SearchEnv) (s : StoreState) (q : List ℝ) (topK : Nat)
    (hmode : s.useInMemoryStore = true) (htop : 1 ≤ topK) :
    ((search env s q topK).1.Pairwise fun x y => y.score ≤ x.score) ∧
      (search env s q topK).1.length ≤ topK ∧
      (search env s q topK).1.length ≤ s.inMemoryStore.length ∧
      ∀ c : ℝ, ∃ rest,
        (search env s q topK).1.filter (resultScoreIs c) ++ rest =
          ((scoreAll q s.inMemoryStore).map toSearchResult).filter (resultScoreIs c) := by
  by_cases hlen : s.inMemoryStore.length = 0
  · have hnil : s.inMemoryStore = [] := List.length_eq_zero.mp hlen
    have hres : (search env s q topK).1 = [] := by
      unfold search
      simp [hmode, hlen]
    rw [hres, hnil]
    exact ⟨List.Pairwise.nil, by simp, by simp, fun c => ⟨[], by simp [scoreAll]⟩⟩
  · have hres : (search env s q topK).1 =
        ((sortByScore (scoreAll q s.inMemoryStore)).take topK).map toSearchResult := by
      unfold search
      simp [hmode, hlen]
    rw [hres]
    have hsorted : (sortByScore (scoreAll q s.inMemoryStore)).Pairwise scoreGE :=
      List.sorted_insertionSort scoreGE (scoreAll q s.inMemoryStore)
    have htakeSorted :
        ((sortByScore (scoreAll q s.inMemoryStore)).take topK).Pairwise scoreGE :=
      hsorted.sublist (List.take_sublist topK _)
    refine ⟨List.pairwise_map.mpr htakeSorted, ?_, ?_, ?_⟩
    · simp
    · calc (((sortByScore (scoreAll q s.inMemoryStore)).take topK).map toSearchResult).length
          = ((sortByScore (scoreAll q s.inMemoryStore)).take topK).length :=
            List.length_map _ _
        _ ≤ (sortByScore (scoreAll q s.inMemoryStore)).length :=
            (List.take_sublist _ _).length_le
        _ = (scoreAll q s.inMemoryStore).length :=
            (List.perm_insertionSort scoreGE (scoreAll q s.inMemoryStore)).length_eq
        _ = s.inMemoryStore.length := by simp [scoreAll]
    · intro c
      refine ⟨(((sortByScore (scoreAll q s.inMemoryStore)).drop topK).filter
        (scoreIs c)).map toSearchResult, ?_⟩
      rw [filter_map_toSearchResult, filter_map_toSearchResult, ← List.map_append,
        ← List.filter_append, List.take_append_drop, filter_sortByScore]

/-- Witness for C5 at the concrete degraded one-document store with
`topK = 2`. -/
theorem search_inMemory_ranked_witness :
    ((search errSearchEnv memState [1, 0] 2).1.Pairwise fun x y => y.score ≤ x.score) ∧
      (search errSearchEnv memState [1, 0] 2).1.length ≤ 2 ∧
      (search errSearchEnv memState [1, 0] 2).1.length ≤ memState.inMemoryStore.length ∧
      ∀ c : ℝ, ∃ rest,
        (search errSearchEnv memState [1, 0] 2).1.filter (resultScoreIs c) ++ rest =
          ((scoreAll [1, 0] memState.inMemoryStore).map toSearchResult).filter
            (resultScoreIs c) :=
  search_inMemory_ranked errSearchEnv memState [1, 0] 2 rfl (by norm_num)

end VectorStore
